import Mathlib

/-!
Verification of the vector-similarity core of the `ml-demos` repository
(notebook `vectorize-string-columns/00-create-names-table.ipynb`).

The notebook defines two Python UDFs over the embedding vectors and runs a
similarity-search SQL query over them:

* `dot_product(vec1, vec2)` returns `float(np.dot(vec1, vec2))`;
* `vector_norm(vec, ord=2)` returns `float(np.linalg.norm(vec, ord))`;
* the search query computes `dot_product(t.vector_embedding, q.emb)` for every
  row of the candidates table, keeps the rows where the score is strictly
  greater than `0.95`, and orders the kept rows by descending score.

Floating-point values are modelled by real numbers; vectors by `List ℝ`.
Failures of a UDF call (a raised Python exception, which aborts the whole
Spark query) are modelled with `Except`.
-/

open scoped Classical

/-- Error kinds of the similarity engine as named by the specification:
`DimensionMismatch` is the failure `np.dot` raises on one-dimensional inputs of
different lengths, and `InvalidOrder` is the failure the specification claims
for a non-positive norm order. -/
inductive VecError where
  | DimensionMismatch
  | InvalidOrder
deriving DecidableEq

/-- Raw dot product of two vectors: the sum of elementwise products, the value
`np.dot` returns on one-dimensional inputs of equal length. -/
def rawDot (a b : List ℝ) : ℝ :=
  (List.zipWith (fun x y => x * y) a b).sum

/-- Embedding of the notebook UDF `dot_product`, which computes
`float(np.dot(vec1, vec2))`: on one-dimensional inputs of equal length,
`np.dot` returns the sum of elementwise products; on inputs of different
lengths it raises (named `DimensionMismatch` by the specification). -/
def dot_product (vec1 vec2 : List ℝ) : Except VecError ℝ :=
  if vec1.length = vec2.length then
    Except.ok (rawDot vec1 vec2)
  else
    Except.error VecError.DimensionMismatch

/-- Embedding of the notebook UDF `vector_norm`, which computes
`float(np.linalg.norm(vec, ord))` for a one-dimensional input: order `2` gives
the square root of the sum of squares, order `1` the sum of absolute values,
order `0` the number of nonzero entries, and any other order `p` the value
`(Σ |xᵢ| ^ p) ^ (1 / p)`.  `np.linalg.norm` raises no error for any integer
order; in particular there is no invalid-order check. -/
noncomputable def vector_norm (vec : List ℝ) (ord : ℤ) : ℝ :=
  if ord = 2 then Real.sqrt ((vec.map (fun x => x * x)).sum)
  else if ord = 1 then (vec.map (fun x => |x|)).sum
  else if ord = 0 then ((vec.filter (fun x => decide (x ≠ 0))).length : ℝ)
  else ((vec.map (fun x => |x| ^ (ord : ℝ))).sum) ^ ((ord : ℝ))⁻¹

/-- Per-row evaluation of `dot_product(t.vector_embedding, q.emb)` over the
candidates table, as the search query performs it: each row yields the pair of
its name and its score, and a raised `DimensionMismatch` on any row aborts the
whole query (a Spark UDF exception fails the job; nothing catches it). -/
def scoreAll (q : List ℝ) : List (String × List ℝ) → Except VecError (List (String × ℝ))
  | [] => Except.ok []
  | c :: cs => do
    let s ← dot_product c.2 q
    let rest ← scoreAll q cs
    pure ((c.1, s) :: rest)

/-- Descending-score order on search results: `r1` comes before `r2` when the
score of `r1` is at least the score of `r2`. -/
def scoreGE (r1 r2 : String × ℝ) : Prop := r2.2 ≤ r1.2

instance : IsTotal (String × ℝ) scoreGE := ⟨fun a b => le_total b.2 a.2⟩

instance : IsTrans (String × ℝ) scoreGE := ⟨fun _ _ _ h1 h2 => le_trans h2 h1⟩

/-- Embedding of the similarity-search SQL cell: score every candidate row with
`dot_product` against the query embedding, keep the rows whose score is
strictly greater than the threshold (the source fixes it at `0.95`), and sort
the kept rows by descending score. -/
noncomputable def search (queryEmbedding : List ℝ) (candidates : List (String × List ℝ))
    (threshold : ℝ) : Except VecError (List (String × ℝ)) :=
  (scoreAll queryEmbedding candidates).map
    (fun scored =>
      List.insertionSort scoreGE (scored.filter (fun r => decide (threshold < r.2))))

/-- A search run against the stored candidates table: the query reads the table
and writes nothing, so a run returns the table unchanged together with the
result. -/
noncomputable def searchRun (table : List (String × List ℝ)) (q : List ℝ) (θ : ℝ) :
    List (String × List ℝ) × Except VecError (List (String × ℝ)) :=
  (table, search q table θ)

/-! Helper lemmas about the embedded operations. -/

lemma rawDot_nil : rawDot [] [] = 0 := rfl

lemma rawDot_cons (x y : ℝ) (xs ys : List ℝ) :
    rawDot (x :: xs) (y :: ys) = x * y + rawDot xs ys := by
  simp [rawDot]

lemma rawDot_eq_sum_range : ∀ (a b : List ℝ), a.length = b.length →
    rawDot a b = ∑ i ∈ Finset.range a.length, a.getD i 0 * b.getD i 0
  | [], [], _ => by simp [rawDot]
  | [], _ :: _, h => by simp at h
  | _ :: _, [], h => by simp at h
  | x :: xs, y :: ys, h => by
    have h' : xs.length = ys.length := by simpa using h
    rw [rawDot_cons, List.length_cons, Finset.sum_range_succ',
      rawDot_eq_sum_range xs ys h']
    simp [add_comm]

lemma sum_map_eq_sum_range (f : ℝ → ℝ) :
    ∀ v : List ℝ, (v.map f).sum = ∑ i ∈ Finset.range v.length, f (v.getD i 0)
  | [] => by simp
  | x :: xs => by
    rw [List.map_cons, List.sum_cons, List.length_cons, Finset.sum_range_succ',
      sum_map_eq_sum_range f xs]
    simp [add_comm]

lemma zipWith_mul_self (a : List ℝ) :
    List.zipWith (fun x y => x * y) a a = a.map (fun x => x * x) := by
  induction a with
  | nil => rfl
  | cons x xs ih => simp [ih]

lemma rawDot_self_eq (a : List ℝ) : rawDot a a = (a.map (fun x => x * x)).sum := by
  rw [rawDot, zipWith_mul_self]

lemma rawDot_self_nonneg (a : List ℝ) : 0 ≤ rawDot a a := by
  rw [rawDot_self_eq]
  apply List.sum_nonneg
  intro x hx
  obtain ⟨y, _, rfl⟩ := List.mem_map.mp hx
  exact mul_self_nonneg y

lemma rawDot_comm : ∀ (a b : List ℝ), rawDot a b = rawDot b a
  | [], [] => rfl
  | [], _ :: _ => rfl
  | _ :: _, [] => rfl
  | x :: xs, y :: ys => by
    rw [rawDot_cons, rawDot_cons, mul_comm, rawDot_comm xs ys]

lemma scoreAll_ok (q : List ℝ) (cands : List (String × List ℝ))
    (h : ∀ c ∈ cands, c.2.length = q.length) :
    scoreAll q cands = Except.ok (cands.map (fun c => (c.1, rawDot c.2 q))) := by
  induction cands with
  | nil => rfl
  | cons c cs ih =>
    have hc : c.2.length = q.length := h c (List.mem_cons_self c cs)
    have ihe := ih (fun d hd => h d (List.mem_cons_of_mem c hd))
    simp only [scoreAll, dot_product, if_pos hc, ihe, List.map_cons]
    rfl

lemma scoreAll_error (q : List ℝ) (cands : List (String × List ℝ))
    (h : ∃ c ∈ cands, c.2.length ≠ q.length) :
    scoreAll q cands = Except.error VecError.DimensionMismatch := by
  induction cands with
  | nil => simp at h
  | cons c cs ih =>
    by_cases hc : c.2.length = q.length
    · obtain ⟨d, hd, hne⟩ := h
      rcases List.mem_cons.mp hd with rfl | hd'
      · exact absurd hc hne
      · simp only [scoreAll, dot_product, if_pos hc, ih ⟨d, hd', hne⟩]
        rfl
    · simp only [scoreAll, dot_product, if_neg hc]
      rfl

lemma filter_length_eq_card_range : ∀ v : List ℝ,
    (v.filter (fun x => decide (x ≠ 0))).length
      = ((Finset.range v.length).filter (fun i => v.getD i 0 ≠ 0)).card
  | [] => by simp
  | x :: xs => by
    rw [Finset.card_filter, List.length_cons, Finset.sum_range_succ']
    simp only [List.getD_cons_zero, List.getD_cons_succ]
    rw [← Finset.card_filter, ← filter_length_eq_card_range xs]
    by_cases hx : x = 0
    · simp [List.filter_cons, hx]
    · simp [List.filter_cons, hx]

/-! Claim theorems. -/

/-- C2: for every pair of equal-length vectors `a` and `b`, `dot_product a b`
succeeds and returns the sum of elementwise products `a[i] * b[i]`; it is a
pure function of its arguments, so it has no side effects. -/
theorem dot_product_elementwise_sum (a b : List ℝ) (h : a.length = b.length) :
    dot_product a b
      = Except.ok (∑ i ∈ Finset.range a.length, a.getD i 0 * b.getD i 0) := by
  rw [dot_product, if_pos h, rawDot_eq_sum_range a b h]

/-- Witness for C2 at `a = [1, 2]`, `b = [3, 4]`. -/
theorem dot_product_elementwise_sum_witness :
    dot_product [(1 : ℝ), 2] [(3 : ℝ), 4]
      = Except.ok (∑ i ∈ Finset.range ([(1 : ℝ), 2]).length,
          [(1 : ℝ), 2].getD i 0 * [(3 : ℝ), 4].getD i 0) :=
  dot_product_elementwise_sum [1, 2] [3, 4] rfl

/-- C3: for every pair of vectors of differing lengths, `dot_product` fails
with `DimensionMismatch`. -/
theorem dot_product_mismatch_error (a b : List ℝ) (h : a.length ≠ b.length) :
    dot_product a b = Except.error VecError.DimensionMismatch := by
  rw [dot_product, if_neg h]

/-- Witness for C3 at the spec's example `a = [1, 2]`, `b = [1, 2, 3]`. -/
theorem dot_product_mismatch_error_witness :
    dot_product [(1 : ℝ), 2] [(1 : ℝ), 2, 3] = Except.error VecError.DimensionMismatch :=
  dot_product_mismatch_error [1, 2] [1, 2, 3] (by decide)

/-- C8: for every pair of vectors of matching length, the dot product is
commutative. -/
theorem dot_product_commutative (a b : List ℝ) (h : a.length = b.length) :
    dot_product a b = dot_product b a := by
  rw [dot_product, dot_product, if_pos h, if_pos h.symm, rawDot_comm]

/-- Witness for C8 at `a = [1, 2]`, `b = [3, 4]`. -/
theorem dot_product_commutative_witness :
    dot_product [(1 : ℝ), 2] [(3 : ℝ), 4] = dot_product [(3 : ℝ), 4] [(1 : ℝ), 2] :=
  dot_product_commutative [1, 2] [3, 4] rfl

/-- C7: for every vector `a`, `dot_product a a` succeeds and equals the square
of `vector_norm a 2`. -/
theorem dot_product_self_eq_norm_sq (a : List ℝ) :
    dot_product a a = Except.ok ((vector_norm a 2) ^ 2) := by
  have hS : 0 ≤ (a.map (fun x => x * x)).sum := by
    rw [← rawDot_self_eq]
    exact rawDot_self_nonneg a
  rw [dot_product, if_pos rfl, vector_norm, if_pos rfl, Real.sq_sqrt hS, rawDot_self_eq]

/-- C5: with order `2`, `vector_norm` is the Euclidean norm, the square root of
the sum of the squares of the entries; in particular `vector_norm [3, 4] 2 = 5`. -/
theorem vector_norm_euclidean :
    (∀ v : List ℝ, vector_norm v 2
        = Real.sqrt (∑ i ∈ Finset.range v.length, v.getD i 0 ^ 2)) ∧
      vector_norm [3, 4] 2 = 5 := by
  constructor
  · intro v
    rw [vector_norm, if_pos rfl, sum_map_eq_sum_range]
    simp only [pow_two]
  · rw [vector_norm, if_pos rfl]
    have h25 : (([(3 : ℝ), 4].map (fun x => x * x)).sum) = 25 := by norm_num
    rw [h25, show (25 : ℝ) = 5 ^ 2 by norm_num, Real.sqrt_sq (by norm_num : (0 : ℝ) ≤ 5)]

/-- C10: on two empty vectors the lengths match, `dot_product` succeeds with
`0`, and `vector_norm` of the empty vector with order `2` is `0`. -/
theorem empty_vector_ops :
    dot_product ([] : List ℝ) [] = Except.ok 0 ∧ vector_norm [] 2 = 0 := by
  refine ⟨rfl, ?_⟩
  rw [vector_norm, if_pos rfl]
  simp

/-- C6 counterexample: at `v = [3, 4]` and the non-positive order `0`, the code
does not fail with `InvalidOrder`; `np.linalg.norm` returns the number of
nonzero entries, here the ordinary value `2`. -/
theorem vector_norm_nonpositive_counterexample : vector_norm [3, 4] 0 = 2 := by
  rw [vector_norm, if_neg (by decide), if_neg (by decide), if_pos rfl]
  norm_num [List.filter]

/-- C6 amended: `vector_norm` performs no order check and never fails; for the
non-positive order `0` it returns the number of nonzero entries of the vector. -/
theorem vector_norm_zero_order_counts (v : List ℝ) :
    vector_norm v 0
      = (((Finset.range v.length).filter (fun i => v.getD i 0 ≠ 0)).card : ℝ) := by
  rw [vector_norm, if_neg (by decide), if_neg (by decide), if_pos rfl,
    filter_length_eq_card_range]

/-- C1: when every candidate embedding has the query's length, the search
succeeds and returns exactly the candidates whose raw dot-product score is
strictly greater than the threshold (a score equal to the threshold is
excluded), sorted in descending order of score. -/
theorem search_threshold_sorted (q : List ℝ) (cands : List (String × List ℝ)) (θ : ℝ)
    (h : ∀ c ∈ cands, c.2.length = q.length) :
    ∃ results,
      search q cands θ = Except.ok results ∧
      results.Perm ((cands.map (fun c => (c.1, rawDot c.2 q))).filter
        (fun r => decide (θ < r.2))) ∧
      List.Sorted scoreGE results ∧
      ∀ r ∈ results, θ < r.2 := by
  refine ⟨List.insertionSort scoreGE
      ((cands.map (fun c => (c.1, rawDot c.2 q))).filter (fun r => decide (θ < r.2))),
    ?_, ?_, ?_, ?_⟩
  · rw [search, scoreAll_ok q cands h]
    rfl
  · exact List.perm_insertionSort scoreGE _
  · exact List.sorted_insertionSort scoreGE _
  · intro r hr
    rw [List.mem_insertionSort] at hr
    exact of_decide_eq_true (List.mem_filter.mp hr).2

/-- Witness for C1 at the spec's example: query `[1, 0]`, candidates
`A = [1, 0]`, `B = [0, 1]`, `C = [0.99, 0.14]`, threshold `0.95`. -/
theorem search_threshold_sorted_witness :
    ∃ results,
      search [1, 0] [("A", [(1 : ℝ), 0]), ("B", [0, 1]), ("C", [0.99, 0.14])] 0.95
          = Except.ok results ∧
      results.Perm (([("A", [(1 : ℝ), 0]), ("B", [0, 1]), ("C", [0.99, 0.14])].map
          (fun c => (c.1, rawDot c.2 [1, 0]))).filter
        (fun r => decide ((0.95 : ℝ) < r.2))) ∧
      List.Sorted scoreGE results ∧
      ∀ r ∈ results, (0.95 : ℝ) < r.2 :=
  search_threshold_sorted [1, 0] [("A", [(1 : ℝ), 0]), ("B", [0, 1]), ("C", [0.99, 0.14])]
    0.95 (by intro c hc; fin_cases hc <;> rfl)

/-- C4 counterexample: with query `[1, 0]`, a well-formed candidate `A` and a
mismatched candidate `Bad` of length three, the whole search fails with
`DimensionMismatch`; it does not skip `Bad` and return the result for `A`. -/
theorem search_skip_counterexample :
    search [1, 0] [("A", [(1 : ℝ), 0]), ("Bad", [(1 : ℝ), 2, 3])] 0.95
        = Except.error VecError.DimensionMismatch ∧
      ∀ results, search [1, 0] [("A", [(1 : ℝ), 0]), ("Bad", [(1 : ℝ), 2, 3])] 0.95
        ≠ Except.ok results := by
  have hfail : search [1, 0] [("A", [(1 : ℝ), 0]), ("Bad", [(1 : ℝ), 2, 3])] 0.95
      = Except.error VecError.DimensionMismatch := rfl
  exact ⟨hfail, fun results hok => by rw [hfail] at hok; exact Except.noConfusion hok⟩

/-- C4 amended: a dimension mismatch between the query and any candidate
embedding is not recovered per candidate; the whole search fails with
`DimensionMismatch`. -/
theorem search_mismatch_fails (q : List ℝ) (cands : List (String × List ℝ)) (θ : ℝ)
    (h : ∃ c ∈ cands, c.2.length ≠ q.length) :
    search q cands θ = Except.error VecError.DimensionMismatch := by
  rw [search, scoreAll_error q cands h]
  rfl

/-- Witness for the amended C4 at a single mismatched candidate. -/
theorem search_mismatch_fails_witness :
    search [(1 : ℝ), 0] [("Bad", [(1 : ℝ), 2, 3])] 0.95
      = Except.error VecError.DimensionMismatch :=
  search_mismatch_fails [(1 : ℝ), 0] [("Bad", [(1 : ℝ), 2, 3])] 0.95
    ⟨("Bad", [1, 2, 3]), by simp, by simp⟩

/-- C9: search is deterministic and stateless: a run leaves the candidates
table unchanged, and a second run on the same inputs over the state left by
the first yields the identical ordered output. -/
theorem search_stateless_deterministic (table : List (String × List ℝ)) (q : List ℝ)
    (θ : ℝ) :
    (searchRun table q θ).1 = table ∧
      (searchRun (searchRun table q θ).1 q θ).2 = (searchRun table q θ).2 :=
  ⟨rfl, rfl⟩
